import Mathlib

/-!
Verification of the payslip extractor (`extract_payslip.py`).

Shallow embedding conventions:
- Python `str` values are embedded as `String`; the character-level work is
  done on `List Char`.
- Python `float(...)` applied to the digit/dot strings captured by the
  regular expressions is embedded as the exact rational value of the decimal
  literal (`pyFloat`); a `float` conversion that raises `ValueError` is
  embedded as `none`, and such an exception propagates out of a parser as an
  overall `none` result.
- The fixed regular expressions of `PatternConfig` are embedded as
  deterministic matchers.  Every non-lazy pattern in the source alternates
  character classes that are pairwise disjoint from their separators
  (`[\d.]`, `\w` and `\d` share no character with `\s`), so greedy maximal
  munch coincides with Python's backtracking semantics for them.  The one
  lazy pattern (`PAY_PERIOD_PATTERN`) is embedded with explicit
  shortest-first backtracking.
- Character classes are modelled on their ASCII meaning, which covers the
  payslip text domain.
-/

/-- ASCII whitespace, as matched by Python `str.strip` and `\s` on this
domain: space, tab, newline, carriage return, vertical tab, form feed. -/
def wsChar (c : Char) : Bool :=
  c == ' ' || c == '\t' || c == '\n' || c == '\r' ||
    c == Char.ofNat 11 || c == Char.ofNat 12

/-- The character class `[\d.]` of the numeric capture groups. -/
def digitDot (c : Char) : Bool :=
  c.isDigit || c == '.'

/-- The character class `\w` (ASCII): letters, digits, underscore. -/
def wordChar (c : Char) : Bool :=
  c.isAlphanum || c == '_'

/-- `lstarts needle hay` is Python `hay.startswith(needle)` on char lists. -/
def lstarts : List Char → List Char → Bool
  | [], _ => true
  | _ :: _, [] => false
  | a :: as, b :: bs => a == b && lstarts as bs

/-- `lcontains needle hay` is Python `needle in hay` (substring test). -/
def lcontains (needle : List Char) : List Char → Bool
  | [] => lstarts needle []
  | c :: t => lstarts needle (c :: t) || lcontains needle t

/-- Python `str.strip()`: drop whitespace from both ends. -/
def pyStrip (l : List Char) : List Char :=
  ((l.dropWhile wsChar).reverse.dropWhile wsChar).reverse

/-- Python `text.split('\n')`: split on newline, keeping empty pieces. -/
def splitNl : List Char → List (List Char)
  | [] => [[]]
  | c :: t =>
    if c == '\n' then [] :: splitNl t
    else
      match splitNl t with
      | h :: r => (c :: h) :: r
      | [] => [[c]]

/-- Numeric value of a list of decimal digit characters. -/
def natOfDigits (l : List Char) : Nat :=
  l.foldl (fun n c => 10 * n + (c.toNat - 48)) 0

/-- Python `float(s)` restricted to the strings the patterns can capture
(non-empty strings of digits and dots): defined exactly when there is at
most one dot and at least one digit, yielding the exact rational value of
the decimal literal; `none` models the `ValueError` raised otherwise. -/
def pyFloat (s : List Char) : Option ℚ :=
  if s.all digitDot && (s.filter (fun c => c == '.')).length ≤ 1
      && s.any Char.isDigit then
    let ip := s.takeWhile (fun c => !(c == '.'))
    let fp := (s.dropWhile (fun c => !(c == '.'))).drop 1
    some (mkRat (natOfDigits (ip ++ fp)) (10 ^ fp.length))
  else none

/-- If the literal "CAS..." prefix `needle` starts `hay`, return the rest. -/
def eatLit (needle hay : List Char) : Option (List Char) :=
  if lstarts needle hay then some (hay.drop needle.length) else none

/-- Consume a non-empty maximal run of characters in class `p`
(the embedding of a greedy `class+` whose follower class is disjoint). -/
def eatRun (p : Char → Bool) (l : List Char) : Option (List Char × List Char) :=
  let g := l.takeWhile p
  if g.isEmpty then none else some (g, l.dropWhile p)

/-- `re.search` driver: try the anchored matcher `m` at every start
position, leftmost success first (Python's search order). -/
def searchAll {α : Type} (m : List Char → Option α) : List Char → Option α
  | [] => m []
  | c :: t =>
    match m (c :: t) with
    | some v => some v
    | none => searchAll m t

/-!
`DateParser.parse_reference_date`: `datetime.strptime(ref_date, '%d%b%y')`
followed by `strftime('%Y-%m-%d')`, with `ValueError` recovered by
returning the original token.

Python's `_strptime` compiles `'%d%b%y'` to the case-insensitive regex
`(3[01]|[12]\d|0[1-9]|[1-9]| [1-9])(jan|feb|...|dec)(\d\d)` and rejects
unconverted trailing data; the resulting `datetime` constructor then
validates the day against the month length.  The day alternation is
deterministic here: whenever a two-digit alternative matches, the
character after a one-digit day would be a digit, which no month
abbreviation starts with, so Python's backtracking never changes the
outcome and a committed first-match embedding is exact.
-/

/-- Numeric value of one digit character. -/
def digitVal (c : Char) : Nat := c.toNat - 48

/-- The two-digit day alternatives `3[01]|[12]\d|0[1-9]` of `%d`. -/
def day2 (c1 c2 : Char) : Option Nat :=
  if c1 == '3' && (c2 == '0' || c2 == '1') then some (30 + digitVal c2)
  else if (c1 == '1' || c1 == '2') && c2.isDigit then
    some (10 * digitVal c1 + digitVal c2)
  else if c1 == '0' && c2.isDigit && !(c2 == '0') then some (digitVal c2)
  else none

/-- `%d`: the full alternation `3[01]|[12]\d|0[1-9]|[1-9]| [1-9]`,
returning the day and the unconsumed rest. -/
def parseDayTok : List Char → Option (Nat × List Char)
  | c1 :: c2 :: rest =>
    match day2 c1 c2 with
    | some d => some (d, rest)
    | none =>
      if c1.isDigit && !(c1 == '0') then some (digitVal c1, c2 :: rest)
      else if c1 == ' ' && c2.isDigit && !(c2 == '0') then
        some (digitVal c2, rest)
      else none
  | [c1] => if c1.isDigit && !(c1 == '0') then some (digitVal c1, []) else none
  | [] => none

/-- The C-locale month abbreviations, lowercased for the
case-insensitive comparison `_strptime` performs. -/
def monthNames : List (List Char) :=
  ["jan", "feb", "mar", "apr", "may", "jun",
   "jul", "aug", "sep", "oct", "nov", "dec"].map String.toList

/-- 1-based index of a lowercased three-letter month abbreviation. -/
def monthIndexAux : List (List Char) → Nat → List Char → Option Nat
  | [], _, _ => none
  | n :: ns, k, l => if n == l then some k else monthIndexAux ns (k + 1) l

/-- `%b`: three letters matched case-insensitively against the month
abbreviations, returning the month number and the unconsumed rest. -/
def parseMonthTok : List Char → Option (Nat × List Char)
  | a :: b :: c :: rest =>
    match monthIndexAux monthNames 1 ([a, b, c].map Char.toLower) with
    | some m => some (m, rest)
    | none => none
  | _ => none

/-- Gregorian leap-year rule used by `datetime`. -/
def isLeap (y : Nat) : Bool :=
  y % 4 == 0 && (!(y % 100 == 0) || y % 400 == 0)

/-- Days in a month, as validated by the `datetime` constructor. -/
def daysInMonth (y m : Nat) : Nat :=
  if m == 2 then (if isLeap y then 29 else 28)
  else if m == 4 || m == 6 || m == 9 || m == 11 then 30
  else 31

/-- `datetime.strptime(s, '%d%b%y')` as `(year, month, day)`: the compiled
regex must consume the whole token (`%y` is exactly two digits and nothing
may follow), `%y` maps 00-68 to 2000-2068 and 69-99 to 1969-1999, and the
day must exist in the month. -/
def strptimeDby (s : List Char) : Option (Nat × Nat × Nat) :=
  match parseDayTok s with
  | none => none
  | some (d, r1) =>
    match parseMonthTok r1 with
    | none => none
    | some (m, r2) =>
      match r2 with
      | [y1, y2] =>
        if y1.isDigit && y2.isDigit then
          let yy := 10 * digitVal y1 + digitVal y2
          let year := if yy ≤ 68 then 2000 + yy else 1900 + yy
          if d ≤ daysInMonth year m then some (year, m, d) else none
        else none
      | _ => none

/-- Left-pad the decimal rendering of `n` with zeros to width `w`. -/
def padNat (w n : Nat) : List Char :=
  let ds := Nat.toDigits 10 n
  List.replicate (w - ds.length) '0' ++ ds

/-- `strftime('%Y-%m-%d')` on a parsed `(year, month, day)`. -/
def isoRender (y m d : Nat) : String :=
  String.mk (padNat 4 y ++ ['-'] ++ padNat 2 m ++ ['-'] ++ padNat 2 d)

namespace DateParser

/-- `DateParser.parse_reference_date`: format the parsed date, or return
the token unchanged when `strptime` raises `ValueError`. -/
def parse_reference_date (s : String) : String :=
  match strptimeDby s.toList with
  | some (y, m, d) => isoRender y m d
  | none => s

end DateParser

example : DateParser.parse_reference_date "01Jul24" = "2024-07-01" := by decide
example : DateParser.parse_reference_date "31Feb24" = "31Feb24" := by decide
example : DateParser.parse_reference_date "29Feb24" = "2024-02-29" := by decide
example : DateParser.parse_reference_date "notadate" = "notadate" := by decide

/-! Data model (the three dataclasses). -/

/-- Dataclass `PayPeriodInfo`. -/
structure PayPeriodInfo where
  period : Option String := none
  paid_date : Option String := none
deriving Repr, DecidableEq

/-- Dataclass `PaymentRecord`.  `hours`, `rate`, `amount` carry the exact
rational value of the captured decimal literal (see `pyFloat`). -/
structure PaymentRecord where
  pdf_file : String
  page : Nat
  pay_period : Option String
  paid_date : Option String
  work_date : String
  hours : ℚ
  rate : ℚ
  amount : ℚ
deriving Repr, DecidableEq

/-- Dataclass `SummaryRecord`. -/
structure SummaryRecord where
  pdf_file : String
  page : Nat
  pay_period : Option String
  paid_date : Option String
  gross_pay : Option ℚ := none
  tax : Option ℚ := none
  nett_pay : Option ℚ := none
  ytd_gross_pay : Option ℚ := none
  ytd_tax : Option ℚ := none
  ytd_nett_pay : Option ℚ := none
  disbursement_amount : Option ℚ := none
deriving Repr, DecidableEq

/-!
`PAY_PERIOD_PATTERN = r'Pay Period (.+?) to (.+?) Paid (.+?)$'`, used with
`re.search`.  The lazy groups are embedded shortest-first with
backtracking; `.` does not match a newline, and `$` matches at the end of
the string or just before one trailing newline.
-/

/-- The suffix group `(.+?)$`: the whole remainder (minus one trailing
newline, before which `$` may match), required non-empty and
newline-free. -/
def ppTail (r : List Char) : Option (List Char) :=
  let core := if r.getLast? == some '\n' then r.dropLast else r
  if !core.isEmpty && core.all (fun c => !(c == '\n')) then some core
  else none

/-- Lazy group followed by the literal separator `sep` and continuation
`k`: grow the group one character at a time (never across a newline),
trying the separator and the rest of the pattern at each length,
shortest first — Python's backtracking order for `(.+?)sep...`. -/
def lazyGroup {α : Type} (sep : List Char) (k : List Char → Option α) :
    List Char → List Char → Option (List Char × α)
  | _, [] => none
  | acc, c :: rest =>
    if c == '\n' then none
    else
      let acc' := acc ++ [c]
      match (match eatLit sep rest with
             | some r => (k r).map (fun v => (acc', v))
             | none => none) with
      | some res => some res
      | none => lazyGroup sep k acc' rest

/-- `PAY_PERIOD_PATTERN` anchored at the current position: literal
`"Pay Period "`, then the three lazy groups. -/
def ppMatchAt (l : List Char) : Option (List Char × List Char × List Char) :=
  match eatLit "Pay Period ".toList l with
  | none => none
  | some r =>
    (lazyGroup " to ".toList
      (fun r2 => lazyGroup " Paid ".toList ppTail [] r2) [] r).map
      (fun (g1, g2, g3) => (g1, g2, g3))

/-- One iteration of the `PayPeriodParser.extract` loop body: the two
`in` marker tests, then `re.search` of the pattern; `some` carries the
`(period, paid_date)` pair the function would return from this line. -/
def ppLineMatch (line : String) : Option (String × String) :=
  if lcontains "Pay Period".toList line.toList
      && lcontains "Paid".toList line.toList then
    match searchAll ppMatchAt line.toList with
    | some (g1, g2, g3) =>
      some (String.mk (g1 ++ " to ".toList ++ g2), String.mk g3)
    | none => none
  else none

namespace PayPeriodParser

/-- `PayPeriodParser.extract`: return from the first line whose markers
and pattern match; an empty `PayPeriodInfo` when none does. -/
def extract : List String → PayPeriodInfo
  | [] => {}
  | l :: tl =>
    match ppLineMatch l with
    | some (per, pd) => { period := some per, paid_date := some pd }
    | none => extract tl

end PayPeriodParser

example :
    PayPeriodParser.extract
      ["junk", "Pay Period 01Jul24 to 14Jul24 Paid 15Jul24", "later"] =
    { period := some "01Jul24 to 14Jul24", paid_date := some "15Jul24" } := by
  decide

example : PayPeriodParser.extract ["no markers here"] = {} := by decide

/-!
`PAYMENT_PATTERN =
 r'CAS OrdPay \(incCASloading\)\s+([\d.]+)\s+([\d.]+)\s+(\w+)\s+([\d.]+)'`,
used with `re.match` (anchored at the start of the raw line, trailing text
allowed).  All classes are disjoint from `\s`, so maximal munch is exact.
-/

/-- The four capture groups of `PAYMENT_PATTERN` (hours, rate, reference
date, amount), or `none` when the line does not match. -/
def paymentGroups (l : List Char) :
    Option (List Char × List Char × List Char × List Char) := do
  let r0 ← eatLit "CAS OrdPay (incCASloading)".toList l
  let (_, r1) ← eatRun wsChar r0
  let (g1, r2) ← eatRun digitDot r1
  let (_, r3) ← eatRun wsChar r2
  let (g2, r4) ← eatRun digitDot r3
  let (_, r5) ← eatRun wsChar r4
  let (g3, r6) ← eatRun wordChar r5
  let (_, r7) ← eatRun wsChar r6
  let (g4, _) ← eatRun digitDot r7
  pure (g1, g2, g3, g4)

namespace PaymentParser

/-- The section-entry test: the stripped line starts with `"Payments"` and
`"Hours"` occurs in this line or in the immediately following one
(`look` is `lines[i+1]` when it exists). -/
def enterLine (line : String) (look : Option String) : Bool :=
  lstarts "Payments".toList (pyStrip line.toList) &&
    (lcontains "Hours".toList line.toList ||
      match look with
      | some nxt => lcontains "Hours".toList nxt.toList
      | none => false)

/-- The section-end test: the stripped line starts with `"Deductions"` or
`"Benefits"`. -/
def isTermLine (line : String) : Bool :=
  lstarts "Deductions".toList (pyStrip line.toList) ||
    lstarts "Benefits".toList (pyStrip line.toList)

/-- The loop of `PaymentParser.extract`: `inSec` is
`in_payments_section`, `acc` holds the records found so far (reversed);
`none` models the `ValueError` a failing `float(...)` raises out of the
call. -/
def go (f : String) (p : Nat) (info : PayPeriodInfo) :
    List String → Bool → List PaymentRecord → Option (List PaymentRecord)
  | [], _, acc => some acc.reverse
  | line :: tl, inSec, acc =>
    if enterLine line tl.head? then go f p info tl true acc
    else if inSec then
      if isTermLine line then some acc.reverse
      else
        match paymentGroups line.toList with
        | none => go f p info tl inSec acc
        | some (g1, g2, g3, g4) =>
          match pyFloat g1, pyFloat g2, pyFloat g4 with
          | some h, some r, some a =>
            let pr : PaymentRecord :=
              { pdf_file := f, page := p,
                pay_period := info.period, paid_date := info.paid_date,
                work_date := DateParser.parse_reference_date (String.mk g3),
                hours := h, rate := r, amount := a }
            go f p info tl inSec (pr :: acc)
          | _, _, _ => none
    else go f p info tl inSec acc

/-- `PaymentParser.extract`. -/
def extract (lines : List String) (f : String) (p : Nat)
    (info : PayPeriodInfo) : Option (List PaymentRecord) :=
  go f p info lines false []

/-- State evolution of the scan over `pre` when the line that follows
`pre` in the full input is `next` (the lookahead of the last element of
`pre`).  `some s` means the scan reaches the end of `pre` with
`in_payments_section = s`; `none` means it already broke on a
terminator inside `pre`. -/
def stateThrough (next : String) : List String → Bool → Option Bool
  | [], s => some s
  | line :: tl, s =>
    let look : Option String := tl.head?.orElse fun _ => some next
    if enterLine line look then stateThrough next tl true
    else if s then
      if isTermLine line then none
      else stateThrough next tl s
    else stateThrough next tl s

end PaymentParser

/-- The page of C4: a Payments header carrying "Hours" and one
well-formed ordinary-pay line. -/
def c4lines : List String :=
  ["Payments Description Hours Rate Date Amount",
   "CAS OrdPay (incCASloading) 7.6 45.50 01Jul24 345.80"]

/-!
`SummaryParser.extract`: one `SummaryRecord` per call, updated by an
`elif` chain over every line.  The summary patterns
(`GROSS_PAY_PATTERN`, `TAX_PATTERN`, `NETT_PAY_PATTERN`,
`DISBURSEMENT_PATTERN`) are searched on the raw line; `TAX_PATTERN`
carries a `^` anchor, so its search can only succeed at position 0.
-/

/-- `label\s+([\d.]+)\s+([\d.]+)` anchored at the current position:
shared shape of the gross/tax/nett patterns. -/
def twoNums (label : List Char) (l : List Char) :
    Option (List Char × List Char) := do
  let r0 ← eatLit label l
  let (_, r1) ← eatRun wsChar r0
  let (g1, r2) ← eatRun digitDot r1
  let (_, r3) ← eatRun wsChar r2
  let (g2, _) ← eatRun digitDot r3
  pure (g1, g2)

/-- `DISBURSEMENT_PATTERN =
r'Commonwealth Bank of Australia\s+\d+\s+([\d.]+)'` anchored at the
current position. -/
def disbAt (l : List Char) : Option (List Char) := do
  let r0 ← eatLit "Commonwealth Bank of Australia".toList l
  let (_, r1) ← eatRun wsChar r0
  let (_, r2) ← eatRun Char.isDigit r1
  let (_, r3) ← eatRun wsChar r2
  let (g1, _) ← eatRun digitDot r3
  pure g1

namespace SummaryParser

/-- One iteration of the `SummaryParser.extract` loop: the `elif` chain
over the stripped line, updating the record; `none` models a
`ValueError` raised by `float(...)` on a captured group. -/
def step (line : String) (s : SummaryRecord) : Option SummaryRecord :=
  let ls := pyStrip line.toList
  if lstarts "Gross Pay".toList ls then
    match searchAll (twoNums "Gross Pay".toList) line.toList with
    | some (g1, g2) =>
      match pyFloat g1, pyFloat g2 with
      | some a, some b =>
        some { s with gross_pay := some a, ytd_gross_pay := some b }
      | _, _ => none
    | none => some s
  else if lstarts "Tax".toList ls && !(lstarts "Tax".toList line.toList) then
    match twoNums "Tax".toList line.toList with
    | some (g1, g2) =>
      match pyFloat g1, pyFloat g2 with
      | some a, some b => some { s with tax := some a, ytd_tax := some b }
      | _, _ => none
    | none => some s
  else if lstarts "Nett Pay".toList ls then
    match searchAll (twoNums "Nett Pay".toList) line.toList with
    | some (g1, g2) =>
      match pyFloat g1, pyFloat g2 with
      | some a, some b =>
        some { s with nett_pay := some a, ytd_nett_pay := some b }
      | _, _ => none
    | none => some s
  else if lcontains "Commonwealth Bank of Australia".toList line.toList then
    match searchAll disbAt line.toList with
    | some g =>
      match pyFloat g with
      | some a => some { s with disbursement_amount := some a }
      | none => none
    | none => some s
  else some s

/-- The loop of `SummaryParser.extract` folded over the lines. -/
def go : List String → SummaryRecord → Option SummaryRecord
  | [], s => some s
  | l :: tl, s =>
    match step l s with
    | some s' => go tl s'
    | none => none

/-- `SummaryParser.extract`. -/
def extract (lines : List String) (f : String) (p : Nat)
    (info : PayPeriodInfo) : Option SummaryRecord :=
  go lines
    { pdf_file := f, page := p,
      pay_period := info.period, paid_date := info.paid_date }

end SummaryParser

/-- The `Gross Pay` update a single line would perform: `some (a, b)`
exactly when the line takes the gross branch, its pattern matches, and
both captured groups convert; mirrors the first arm of
`SummaryParser.step`. -/
def setsGrossPay (line : String) : Option (ℚ × ℚ) :=
  if lstarts "Gross Pay".toList (pyStrip line.toList) then
    match searchAll (twoNums "Gross Pay".toList) line.toList with
    | some (g1, g2) =>
      match pyFloat g1, pyFloat g2 with
      | some a, some b => some (a, b)
      | _, _ => none
    | none => none
  else none

example :
    SummaryParser.extract ["Gross Pay 1200.00 24000.00"] "f.pdf" 1 {} =
      some { pdf_file := "f.pdf", page := 1, pay_period := none,
             paid_date := none, gross_pay := some (mkRat 1200 1),
             ytd_gross_pay := some (mkRat 24000 1) } := by
  decide

namespace PDFProcessor

/-- `PDFProcessor._process_page`: split the page text into lines, run
`PayPeriodParser` once, then `PaymentParser` and `SummaryParser` with its
result.  Returns the page's payment records and its one summary record;
`none` models a propagating `ValueError`. -/
def process_page (name : String) (text : String) (page : Nat) :
    Option (List PaymentRecord × SummaryRecord) := do
  let lines := (splitNl text.toList).map String.mk
  let info := PayPeriodParser.extract lines
  let ps ← PaymentParser.extract lines name page info
  let s ← SummaryParser.extract lines name page info
  pure (ps, s)

/-- The per-page loop of `PDFProcessor.process`: pages are numbered from
1 in visitation order (skipped pages still consume a page number), a page
whose extracted text is `None` or empty (`if text:`) is skipped, and the
page outputs are appended to the running lists. -/
def processGo (name : String) :
    List (Option String) → Nat →
      List PaymentRecord × List SummaryRecord →
      Option (List PaymentRecord × List SummaryRecord)
  | [], _, acc => some acc
  | t :: tl, n, (ps, ss) =>
    match t with
    | none => processGo name tl (n + 1) (ps, ss)
    | some txt =>
      if txt.isEmpty then processGo name tl (n + 1) (ps, ss)
      else
        match process_page name txt n with
        | none => none
        | some (newPs, s) => processGo name tl (n + 1) (ps ++ newPs, ss ++ [s])

/-- `PDFProcessor.process`, with the external PDF library modelled as the
list of per-page extracted texts (`none` for a page whose
`extract_text()` returns `None`). -/
def process (name : String) (pages : List (Option String)) :
    Option (List PaymentRecord × List SummaryRecord) :=
  processGo name pages 1 ([], [])

end PDFProcessor

namespace PayslipProcessor

/-- `PayslipProcessor.process_all_pdfs`, with document discovery modelled
as the list of `(filename, page texts)` pairs the glob found.  Zero
documents yields two empty collections; otherwise all per-document
results are concatenated in order, and — as in the source — when no
payment record was found the summaries are discarded and two empty
collections are returned. -/
def process_all_pdfs (docs : List (String × List (Option String))) :
    Option (List PaymentRecord × List SummaryRecord) :=
  if docs.isEmpty then some ([], [])
  else do
    let results ← docs.mapM (fun d => PDFProcessor.process d.1 d.2)
    let allP := (results.map Prod.fst).flatten
    let allS := (results.map Prod.snd).flatten
    if allP.isEmpty then pure ([], []) else pure (allP, allS)

end PayslipProcessor

/-- Observable outcome of one run of `main` (console output excluded as
an external side effect): the two aggregated collections and whether the
output spreadsheet was written. -/
structure RunOutcome where
  payments : List PaymentRecord
  summaries : List SummaryRecord
  wroteFile : Bool
deriving Repr, DecidableEq

/-- `main`: run `process_all_pdfs`; the Excel file is written exactly
when the payments table is non-empty (`if not payments_df.empty`). -/
def mainRun (docs : List (String × List (Option String))) :
    Option RunOutcome :=
  (PayslipProcessor.process_all_pdfs docs).map
    (fun r => { payments := r.1, summaries := r.2, wroteFile := !r.1.isEmpty })

/-- Page-1 text of the two-page document of C7: pay period line, a
Payments section with one payment line, and summary fields. -/
def c7page1 : String :=
  "Pay Period 01Jul24 to 14Jul24 Paid 15Jul24\nPayments Hours\nCAS OrdPay (incCASloading) 7.6 45.50 01Jul24 345.80\nDeductions\nGross Pay 345.80 345.80\nNett Pay 300.00 300.00"

/-- Page-2 text of the two-page document of C7: no payment line and no
summary field. -/
def c7page2 : String :=
  "Nothing relevant on this page"

namespace PaymentParser

/-- `PaymentParser.extract` with the caller-owned state made explicit:
the environment `env` carries the argument list of lines and the supplied
`PayPeriodInfo`; every loop iteration receives the environment the
previous one returned and reads `pay_period` / `paid_date` from it, as
the source loop body does, and the final environment is returned next to
the result.  The source loop contains no assignment to either argument,
so each iteration passes `env` on unchanged. -/
def goTrack (f : String) (p : Nat) :
    List String → List String × PayPeriodInfo → Bool → List PaymentRecord →
      (List String × PayPeriodInfo) × Option (List PaymentRecord)
  | [], env, _, acc => (env, some acc.reverse)
  | line :: tl, env, inSec, acc =>
    if enterLine line tl.head? then goTrack f p tl env true acc
    else if inSec then
      if isTermLine line then (env, some acc.reverse)
      else
        match paymentGroups line.toList with
        | none => goTrack f p tl env inSec acc
        | some (g1, g2, g3, g4) =>
          match pyFloat g1, pyFloat g2, pyFloat g4 with
          | some h, some r, some a =>
            let pr : PaymentRecord :=
              { pdf_file := f, page := p,
                pay_period := env.2.period, paid_date := env.2.paid_date,
                work_date := DateParser.parse_reference_date (String.mk g3),
                hours := h, rate := r, amount := a }
            goTrack f p tl env inSec (pr :: acc)
          | _, _, _ => (env, none)
    else goTrack f p tl env inSec acc

/-- `extract` with explicit caller state: starts from the environment
holding the actual arguments. -/
def extractTrack (lines : List String) (f : String) (p : Nat)
    (info : PayPeriodInfo) :
    (List String × PayPeriodInfo) × Option (List PaymentRecord) :=
  goTrack f p lines (lines, info) false []

end PaymentParser

/-!
Claims.
-/

/-- C2: for every input token, `DateParser.parse_reference_date` returns
the canonical ISO `YYYY-MM-DD` rendering when the token parses as a valid
compact `%d%b%y` date, and returns the token itself unchanged (no error)
when it does not; `01Jul24 -> 2024-07-01`, while `31Feb24` (matching the
shape but not a valid calendar date) and `notadate` come back unchanged. -/
theorem date_parser_correct :
    (∀ (s : String) (y m d : Nat), strptimeDby s.toList = some (y, m, d) →
        DateParser.parse_reference_date s = isoRender y m d) ∧
    (∀ s : String, strptimeDby s.toList = none →
        DateParser.parse_reference_date s = s) ∧
    DateParser.parse_reference_date "01Jul24" = "2024-07-01" ∧
    DateParser.parse_reference_date "31Feb24" = "31Feb24" ∧
    DateParser.parse_reference_date "29Feb24" = "2024-02-29" ∧
    DateParser.parse_reference_date "notadate" = "notadate" := by
  refine ⟨?_, ?_, by decide, by decide, by decide, by decide⟩
  · intro s y m d h
    unfold DateParser.parse_reference_date
    rw [h]
  · intro s h
    unfold DateParser.parse_reference_date
    rw [h]

/-- Witness for C2 at the concrete token `01Jul24`. -/
theorem date_parser_correct_witness :
    DateParser.parse_reference_date "01Jul24" = isoRender 2024 7 1 :=
  date_parser_correct.1 "01Jul24" 2024 7 1 (by decide)

/-- C1 (code behaviour at the claim's input): an indented line whose
trimmed prefix is `Tax` followed by two amounts leaves `tax` and
`ytd_tax` unset, because `TAX_PATTERN` is anchored at the start of the
raw line (`^Tax`) while this branch is only reached when the raw line
does not start with `Tax`, so the search can never succeed. -/
theorem summary_tax_never_set :
    SummaryParser.extract [" Tax 100.00 200.00"] "payslip.pdf" 1 {} =
      some { pdf_file := "payslip.pdf", page := 1,
             pay_period := none, paid_date := none } := by
  decide

/-- C4: on a Payments section whose header line carries `Hours` and whose
single payment line reads `7.6 45.50 01Jul24 345.80`,
`PaymentParser.extract` returns exactly one record with those values,
`work_date = "2024-07-01"`, and the pay period and paid date copied from
the supplied `PayPeriodInfo`. -/
theorem payment_single_record (f : String) (p : Nat) (info : PayPeriodInfo) :
    PaymentParser.extract c4lines f p info =
      some [{ pdf_file := f, page := p, pay_period := info.period,
              paid_date := info.paid_date, work_date := "2024-07-01",
              hours := mkRat 38 5, rate := mkRat 91 2,
              amount := mkRat 1729 5 }] := by
  rfl

/-- C8: with zero input documents the run yields two empty collections
and writes no output file. -/
theorem zero_documents_empty_run :
    mainRun [] =
      some { payments := [], summaries := [], wroteFile := false } := by
  decide

/-- C5: `PayPeriodParser.extract` takes its result from the first line on
which the marker tests and `PAY_PERIOD_PATTERN` succeed, composing
`period = "start to end"` and `paid_date = date` and ignoring all later
lines; when no line matches, both fields come back unset. -/
theorem pay_period_first_match :
    (∀ (pre : List String) (line : String) (post : List String)
        (per pd : String),
        (∀ l ∈ pre, ppLineMatch l = none) →
        ppLineMatch line = some (per, pd) →
        PayPeriodParser.extract (pre ++ line :: post) =
          { period := some per, paid_date := some pd }) ∧
    (∀ lines : List String, (∀ l ∈ lines, ppLineMatch l = none) →
        PayPeriodParser.extract lines =
          { period := none, paid_date := none }) := by
  constructor
  · intro pre line post per pd hpre hline
    induction pre with
    | nil => simp [PayPeriodParser.extract, hline]
    | cons x tl ih =>
      have hx : ppLineMatch x = none := hpre x (by simp)
      simp only [List.cons_append, PayPeriodParser.extract, hx]
      exact ih (fun l hl => hpre l (by simp [hl]))
  · intro lines h
    induction lines with
    | nil => rfl
    | cons x tl ih =>
      have hx : ppLineMatch x = none := h x (by simp)
      simp only [PayPeriodParser.extract, hx]
      exact ih (fun l hl => h l (by simp [hl]))

/-- Witness for C5: the second of two well-formed pay-period lines is
ignored. -/
theorem pay_period_first_match_witness :
    PayPeriodParser.extract
      ["Employee 12345",
       "Pay Period 01Jul24 to 14Jul24 Paid 15Jul24",
       "Pay Period 02Aug24 to 15Aug24 Paid 16Aug24"] =
      { period := some "01Jul24 to 14Jul24", paid_date := some "15Jul24" } :=
  pay_period_first_match.1 ["Employee 12345"]
    "Pay Period 01Jul24 to 14Jul24 Paid 15Jul24"
    ["Pay Period 02Aug24 to 15Aug24 Paid 16Aug24"]
    "01Jul24 to 14Jul24" "15Jul24" (by decide) (by decide)

/-- C7: the two-page document whose first page holds one payment line and
summary fields and whose second page holds neither yields one payment
record (page 1) and one summary record per page, the second with every
monetary field unset. -/
theorem two_page_document_extraction :
    PDFProcessor.process "doc.pdf" [some c7page1, some c7page2] =
      some
        ([{ pdf_file := "doc.pdf", page := 1,
            pay_period := some "01Jul24 to 14Jul24",
            paid_date := some "15Jul24", work_date := "2024-07-01",
            hours := mkRat 38 5, rate := mkRat 91 2,
            amount := mkRat 1729 5 }],
         [{ pdf_file := "doc.pdf", page := 1,
            pay_period := some "01Jul24 to 14Jul24",
            paid_date := some "15Jul24",
            gross_pay := some (mkRat 1729 5),
            ytd_gross_pay := some (mkRat 1729 5),
            nett_pay := some (mkRat 300 1),
            ytd_nett_pay := some (mkRat 300 1) },
          { pdf_file := "doc.pdf", page := 2,
            pay_period := none, paid_date := none }]) := by
  set_option maxRecDepth 8000 in decide

namespace PaymentParser

/-- Each loop iteration of the tracked scan hands the environment on
unchanged and computes the same records as the plain scan. -/
theorem goTrack_spec (f : String) (p : Nat) :
    ∀ (rest ls : List String) (i : PayPeriodInfo) (b : Bool)
      (acc : List PaymentRecord),
      goTrack f p rest (ls, i) b acc = ((ls, i), go f p i rest b acc) := by
  intro rest
  induction rest with
  | nil => intro ls i b acc; rfl
  | cons line tl ih =>
    intro ls i b acc
    simp only [goTrack, go]
    repeat' split
    all_goals first
      | rfl
      | apply ih

end PaymentParser

/-- C9: `PaymentParser.extract` leaves its caller's state untouched — the
tracked run returns the argument list of lines and the supplied
`PayPeriodInfo` exactly as they went in, next to the same freshly built
(possibly empty) record list the pure function denotes. -/
theorem payment_extract_no_mutation (lines : List String) (f : String)
    (p : Nat) (info : PayPeriodInfo) :
    PaymentParser.extractTrack lines f p info =
      ((lines, info), PaymentParser.extract lines f p info) :=
  PaymentParser.goTrack_spec f p lines lines info false []

/-- Every value `float(...)` produces from a captured `[\d.]+` group is
non-negative: the literal has no sign. -/
theorem pyFloat_nonneg (s : List Char) (q : ℚ) (h : pyFloat s = some q) :
    0 ≤ q := by
  unfold pyFloat at h
  split at h
  · simp only [Option.some.injEq] at h
    subst h
    exact Rat.mkRat_nonneg (Int.natCast_nonneg _) _
  · simp at h

namespace PaymentParser

/-- Non-negativity is preserved through the payment scan. -/
theorem go_nonneg (f : String) (p : Nat) (i : PayPeriodInfo) :
    ∀ (rest : List String) (b : Bool) (acc recs : List PaymentRecord),
      (∀ r ∈ acc, 0 ≤ r.hours ∧ 0 ≤ r.rate ∧ 0 ≤ r.amount) →
      go f p i rest b acc = some recs →
      ∀ r ∈ recs, 0 ≤ r.hours ∧ 0 ≤ r.rate ∧ 0 ≤ r.amount := by
  intro rest
  induction rest with
  | nil =>
    intro b acc recs hacc h
    simp only [go, Option.some.injEq] at h
    subst h
    intro r hr
    exact hacc r (List.mem_reverse.mp hr)
  | cons line tl ih =>
    intro b acc recs hacc h
    simp only [go] at h
    split at h
    · exact ih true acc recs hacc h
    · split at h
      · split at h
        · simp only [Option.some.injEq] at h
          subst h
          intro r hr
          exact hacc r (List.mem_reverse.mp hr)
        · split at h
          · exact ih b acc recs hacc h
          · split at h
            case _ q1 q2 q3 hf1 hf2 hf3 =>
              refine ih b _ recs ?_ h
              intro r hr
              rcases List.mem_cons.mp hr with hr | hr
              · subst hr
                exact ⟨pyFloat_nonneg _ _ hf1, pyFloat_nonneg _ _ hf2,
                       pyFloat_nonneg _ _ hf3⟩
              · exact hacc r hr
            · exact absurd h (by simp)
      · exact ih b acc recs hacc h

end PaymentParser

/-- C10: every record a normally returning `PaymentParser.extract`
produces has non-negative `hours`, `rate` and `amount` — the captured
groups admit only digits and dots, so parsing cannot make a negative
value. -/
theorem payment_values_nonneg (lines : List String) (f : String) (p : Nat)
    (i : PayPeriodInfo) (recs : List PaymentRecord)
    (h : PaymentParser.extract lines f p i = some recs) :
    ∀ r ∈ recs, 0 ≤ r.hours ∧ 0 ≤ r.rate ∧ 0 ≤ r.amount :=
  PaymentParser.go_nonneg f p i lines false [] recs (by simp) h

/-- The one record extracted from the C4 page, used to witness C10. -/
def c10rec : PaymentRecord :=
  { pdf_file := "f.pdf", page := 1, pay_period := none, paid_date := none,
    work_date := "2024-07-01", hours := mkRat 38 5, rate := mkRat 91 2,
    amount := mkRat 1729 5 }

/-- Witness for C10 on the concrete C4 page. -/
theorem payment_values_nonneg_witness :
    0 ≤ c10rec.hours ∧ 0 ≤ c10rec.rate ∧ 0 ≤ c10rec.amount :=
  payment_values_nonneg c4lines "f.pdf" 1 {} [c10rec] (by decide) c10rec
    (by simp)

/-- A successful `lstarts` with a non-empty needle forces the first
character of the haystack. -/
theorem lstarts_cons {a : Char} {as l : List Char}
    (h : lstarts (a :: as) l = true) : ∃ t, l = a :: t := by
  cases l with
  | nil => simp [lstarts] at h
  | cons b bs =>
    simp only [lstarts, Bool.and_eq_true, beq_iff_eq] at h
    exact ⟨bs, by rw [h.1]⟩

namespace PaymentParser

/-- A terminator line never satisfies the section-entry test: its
stripped form starts with `D` or `B`, not with `P`. -/
theorem isTerm_not_enter (line : String) (look : Option String)
    (h : isTermLine line = true) : enterLine line look = false := by
  unfold isTermLine at h
  unfold enterLine
  have hnp : lstarts "Payments".toList (pyStrip line.toList) = false := by
    rcases (by simpa using h :
        lstarts "Deductions".toList (pyStrip line.toList) = true ∨
          lstarts "Benefits".toList (pyStrip line.toList) = true) with h1 | h1
    · rw [show "Deductions".toList = 'D' :: "eductions".toList from rfl] at h1
      obtain ⟨t, ht⟩ := lstarts_cons h1
      rw [show "Payments".toList = 'P' :: "ayments".toList from rfl, ht]
      simp only [lstarts]
      rw [show (('P' : Char) == 'D') = false from by decide]
      simp
    · rw [show "Benefits".toList = 'B' :: "enefits".toList from rfl] at h1
      obtain ⟨t, ht⟩ := lstarts_cons h1
      rw [show "Payments".toList = 'P' :: "ayments".toList from rfl, ht]
      simp only [lstarts]
      rw [show (('P' : Char) == 'B') = false from by decide]
      simp
  rw [hnp, Bool.false_and]

/-- Once the scan is inside the Payments section when it reaches a
terminator line, everything after that line is irrelevant: the result
over `pre ++ term :: suf` equals the result over `pre ++ [term]`. -/
theorem go_term_suffix (f : String) (p : Nat) (i : PayPeriodInfo)
    (term : String) (suf : List String)
    (hterm : isTermLine term = true) :
    ∀ (pre : List String) (b : Bool) (acc : List PaymentRecord),
      stateThrough term pre b = some true →
      go f p i (pre ++ term :: suf) b acc =
        go f p i (pre ++ [term]) b acc := by
  intro pre
  induction pre with
  | nil =>
    intro b acc hstate
    simp only [stateThrough, Option.some.injEq] at hstate
    subst hstate
    simp only [List.nil_append, go, isTerm_not_enter term _ hterm,
      Bool.false_eq_true, if_false, hterm, if_true]
  | cons x pre' ih =>
    intro b acc hstate
    have hlook2 :
        (pre'.head?.orElse fun _ => some term) =
          (pre' ++ term :: suf).head? := by
      cases pre' <;> rfl
    have hlook :
        (pre' ++ [term]).head? = (pre' ++ term :: suf).head? := by
      cases pre' <;> rfl
    simp only [stateThrough] at hstate
    rw [hlook2] at hstate
    simp only [List.cons_append, go, List.append_eq, hlook]
    by_cases he : enterLine x ((pre' ++ term :: suf).head?) = true
    · rw [he] at hstate
      simp only [he, if_true] at hstate ⊢
      exact ih true acc (by simpa using hstate)
    · rw [Bool.not_eq_true] at he
      rw [he] at hstate
      simp only [he, Bool.false_eq_true, if_false] at hstate ⊢
      cases b with
      | false =>
        simp only [Bool.false_eq_true, if_false] at hstate ⊢
        exact ih false acc hstate
      | true =>
        simp only [if_true] at hstate ⊢
        by_cases ht : isTermLine x = true
        · simp only [ht, if_true]
        · rw [Bool.not_eq_true] at ht
          rw [ht] at hstate
          simp only [ht, Bool.false_eq_true, if_false] at hstate ⊢
          repeat' split
          all_goals first
            | rfl
            | exact ih true acc hstate
            | exact ih true _ hstate

end PaymentParser

/-- C3: once `PaymentParser.extract` has entered the Payments section, a
line whose trimmed form starts with `Deductions` or `Benefits` stops the
scan: the result over `pre ++ term :: suf` is the result over
`pre ++ [term]`, whatever `suf` holds, so no line at or after the
terminator ever contributes a record. -/
theorem payment_terminator_stops_scan (f : String) (p : Nat)
    (i : PayPeriodInfo) (pre suf : List String) (term : String)
    (hterm : PaymentParser.isTermLine term = true)
    (hstate : PaymentParser.stateThrough term pre false = some true) :
    PaymentParser.extract (pre ++ term :: suf) f p i =
      PaymentParser.extract (pre ++ [term]) f p i :=
  PaymentParser.go_term_suffix f p i term suf hterm pre false [] hstate

/-- Witness for C3: a payment-shaped line after `Deductions` is dropped,
and the terminated page yields no record at all. -/
theorem payment_terminator_stops_scan_witness :
    (PaymentParser.extract
        ["Payments Hours", "Deductions",
         "CAS OrdPay (incCASloading) 7.6 45.50 01Jul24 345.80"]
        "f.pdf" 1 {} =
      PaymentParser.extract ["Payments Hours", "Deductions"] "f.pdf" 1 {}) ∧
    PaymentParser.extract ["Payments Hours", "Deductions"] "f.pdf" 1 {} =
      some [] :=
  ⟨payment_terminator_stops_scan "f.pdf" 1 {} ["Payments Hours"]
      ["CAS OrdPay (incCASloading) 7.6 45.50 01Jul24 345.80"] "Deductions"
      (by decide) (by decide),
    by decide⟩

namespace SummaryParser

/-- The summary fold distributes over list append. -/
theorem go_append (xs ys : List String) (s : SummaryRecord) :
    go (xs ++ ys) s = (go xs s).bind (fun s1 => go ys s1) := by
  induction xs generalizing s with
  | nil => simp [go]
  | cons l tl ih =>
    simp only [List.cons_append, go]
    cases hs : step l s with
    | none => simp
    | some s1 => simp [ih s1]

/-- A line whose gross branch fires updates exactly the two gross
fields. -/
theorem step_of_setsGross (line : String) (s : SummaryRecord) (a b : ℚ)
    (h : setsGrossPay line = some (a, b)) :
    step line s =
      some { s with gross_pay := some a, ytd_gross_pay := some b } := by
  unfold setsGrossPay at h
  simp only [step]
  by_cases hg : lstarts "Gross Pay".toList (pyStrip line.toList) = true
  · rw [if_pos hg] at h
    simp only [hg, if_true]
    cases hs : searchAll (twoNums "Gross Pay".toList) line.toList with
    | none => rw [hs] at h; simp at h
    | some g =>
      obtain ⟨g1, g2⟩ := g
      rw [hs] at h
      have h' : (match pyFloat g1, pyFloat g2 with
          | some a, some b => some (a, b)
          | _, _ => (none : Option (ℚ × ℚ))) = some (a, b) := h
      show (match pyFloat g1, pyFloat g2 with
          | some a, some b =>
            some { s with gross_pay := some a, ytd_gross_pay := some b }
          | _, _ => (none : Option SummaryRecord)) =
        some { s with gross_pay := some a, ytd_gross_pay := some b }
      cases hf1 : pyFloat g1 with
      | none => rw [hf1] at h'; simp at h'
      | some q1 =>
        cases hf2 : pyFloat g2 with
        | none => rw [hf1, hf2] at h'; simp at h'
        | some q2 =>
          rw [hf1, hf2] at h'
          have h'' : some (q1, q2) = some (a, b) := h'
          simp only [Option.some.injEq, Prod.mk.injEq] at h''
          obtain ⟨ha, hb⟩ := h''
          subst ha
          subst hb
          rfl
  · rw [if_neg hg] at h
    simp at h
end SummaryParser

namespace SummaryParser

/-- A line that performs no gross update leaves the two gross fields of
the record unchanged, whatever other field it sets. -/
theorem step_gross_preserved (line : String) (s s' : SummaryRecord)
    (hn : setsGrossPay line = none) (h : step line s = some s') :
    s'.gross_pay = s.gross_pay ∧ s'.ytd_gross_pay = s.ytd_gross_pay := by
  unfold setsGrossPay at hn
  simp only [step] at h
  by_cases hg : lstarts "Gross Pay".toList (pyStrip line.toList) = true
  · rw [if_pos hg] at hn h
    cases hs : searchAll (twoNums "Gross Pay".toList) line.toList with
    | none =>
      rw [hs] at h
      have h' : some s = some s' := h
      rw [Option.some.inj h']
      exact ⟨rfl, rfl⟩
    | some g =>
      obtain ⟨g1, g2⟩ := g
      rw [hs] at h hn
      have h' : (match pyFloat g1, pyFloat g2 with
          | some a, some b =>
            some { s with gross_pay := some a, ytd_gross_pay := some b }
          | _, _ => (none : Option SummaryRecord)) = some s' := h
      have hn' : (match pyFloat g1, pyFloat g2 with
          | some a, some b => some (a, b)
          | _, _ => (none : Option (ℚ × ℚ))) = none := hn
      cases hf1 : pyFloat g1 with
      | none => rw [hf1] at h'; simp at h'
      | some q1 =>
        cases hf2 : pyFloat g2 with
        | none => rw [hf1, hf2] at h'; simp at h'
        | some q2 =>
          rw [hf1, hf2] at hn'
          exact absurd (hn' : some (q1, q2) = none) (by simp)
  · rw [if_neg hg] at h
    repeat' split at h
    all_goals first
      | (rw [← Option.some.inj h]; exact ⟨rfl, rfl⟩)
      | simp at h

/-- Scanning lines none of which performs a gross update preserves the
two gross fields. -/
theorem go_gross_preserved (ys : List String) (s s' : SummaryRecord)
    (hn : ∀ l ∈ ys, setsGrossPay l = none) (h : go ys s = some s') :
    s'.gross_pay = s.gross_pay ∧ s'.ytd_gross_pay = s.ytd_gross_pay := by
  induction ys generalizing s with
  | nil =>
    simp only [go, Option.some.injEq] at h
    subst h
    exact ⟨rfl, rfl⟩
  | cons l tl ih =>
    simp only [go] at h
    cases hs : step l s with
    | none => rw [hs] at h; simp at h
    | some s1 =>
      rw [hs] at h
      have h2 : go tl s1 = some s' := h
      have hp := step_gross_preserved l s s1 (hn l (by simp)) hs
      have hq := ih s1 (fun l' hl' => hn l' (by simp [hl'])) h2
      exact ⟨hq.1.trans hp.1, hq.2.trans hp.2⟩

end SummaryParser

/-- C6: a line whose trimmed prefix is `Gross Pay` followed by two
numbers sets `gross_pay` to the first and `ytd_gross_pay` to the second,
and with no early exit in the loop the last such line on a page
determines the final values, earlier ones being overwritten. -/
theorem summary_gross_last_match (f : String) (p : Nat) (i : PayPeriodInfo)
    (pre post : List String) (line : String) (a b : ℚ) (s : SummaryRecord)
    (h1 : setsGrossPay line = some (a, b))
    (h2 : ∀ l ∈ post, setsGrossPay l = none)
    (h3 : SummaryParser.extract (pre ++ line :: post) f p i = some s) :
    s.gross_pay = some a ∧ s.ytd_gross_pay = some b := by
  unfold SummaryParser.extract at h3
  rw [SummaryParser.go_append] at h3
  cases hpre : SummaryParser.go pre
      { pdf_file := f, page := p,
        pay_period := i.period, paid_date := i.paid_date } with
  | none => rw [hpre] at h3; simp at h3
  | some s1 =>
    rw [hpre] at h3
    have h4 : SummaryParser.go (line :: post) s1 = some s := by
      simpa using h3
    simp only [SummaryParser.go] at h4
    rw [SummaryParser.step_of_setsGross line s1 a b h1] at h4
    have h5 : SummaryParser.go post
        { s1 with gross_pay := some a, ytd_gross_pay := some b } =
          some s := h4
    have h6 := SummaryParser.go_gross_preserved post _ s h2 h5
    exact ⟨by rw [h6.1], by rw [h6.2]⟩

/-- The summary record of the C6 witness page. -/
def c6rec : SummaryRecord :=
  { pdf_file := "f.pdf", page := 1, pay_period := none, paid_date := none,
    gross_pay := some (mkRat 1200 1), ytd_gross_pay := some (mkRat 24000 1) }

/-- Witness for C6: an earlier `Gross Pay` line is overwritten by the
last one, and a later non-matching line changes nothing. -/
theorem summary_gross_last_match_witness :
    c6rec.gross_pay = some (mkRat 1200 1) ∧
      c6rec.ytd_gross_pay = some (mkRat 24000 1) :=
  summary_gross_last_match "f.pdf" 1 {} ["Gross Pay 100.00 200.00"]
    ["Tax details follow"] "Gross Pay 1200.00 24000.00"
    (mkRat 1200 1) (mkRat 24000 1) c6rec (by decide) (by decide) (by decide)
